import Mathlib

/-!
Shallow embedding of the gosf Salesforce client core: the SOQL-like query
builder (OpQuery), the operation variants (create/update/delete/get/query),
the request context and its URL formatters, the OAuth token exchange and
round-trip layer, and the NewClient construction-time normalisation.
External collaborators (HTTP transport, JSON codec, logger) are modelled as
function parameters or opaque string payloads, following the source files.
Definitions come first, then the theorems about them.
-/

namespace GoSF

/-! ## Conditions held in where-clauses

In the source, a where-clause condition is a Go value of dynamic type
(an interface value).  The type switch in whereClause.IsValid accepts the
numeric types, bool and string; everything else is invalid.  We model the
dynamic value as a sum: all Go integer types collapse to an Int carrier,
the float types to their printed form, and any other dynamic type to an
opaque tag that IsValid rejects. -/

inductive GoValue where
  | intVal (n : Int)
  | floatVal (printed : String)
  | boolVal (b : Bool)
  | strVal (s : String)
  | otherVal (typeName : String)
  deriving DecidableEq, Repr

/-- Rendering of a condition by the `%v` format verb of the source. -/
def GoValue.render : GoValue → String
  | .intVal n => toString n
  | .floatVal p => p
  | .boolVal b => if b then "true" else "false"
  | .strVal s => s
  | .otherVal t => t

structure whereClause where
  field : String
  condition : GoValue
  deriving DecidableEq, Repr

/-- IsValid returns true if the whereClause condition is valid: in SOQL a
condition can only be a number, boolean or string (type switch in source). -/
def whereClause.IsValid : whereClause → Bool
  | ⟨_, .intVal _⟩ => true
  | ⟨_, .floatVal _⟩ => true
  | ⟨_, .boolVal _⟩ => true
  | ⟨_, .strVal _⟩ => true
  | ⟨_, .otherVal _⟩ => false

/-! ## The query builder (OpQuery of the gosf package) -/

structure OpQuery where
  sobjectName : String
  selectFileds : List String
  whereClauses : List whereClause
  order : String
  nullPriority : String
  limit : Int
  deriving DecidableEq, Repr

/-- NewOpQuery returns an OpQuery with the given sobjectName; every other
field starts at its Go zero value. -/
def NewOpQuery (sobjectName : String) : OpQuery :=
  { sobjectName := sobjectName
    selectFileds := []
    whereClauses := []
    order := ""
    nullPriority := ""
    limit := 0 }

/-- Select appends fields to selectFileds (the nil check of the source is the
identity in the list model). -/
def OpQuery.Select (op : OpQuery) (fields : List String) : OpQuery :=
  { op with selectFileds := op.selectFileds ++ fields }

/-- From sets which SObject will be queried. -/
def OpQuery.From (op : OpQuery) (sobjectName : String) : OpQuery :=
  { op with sobjectName := sobjectName }

/-- OrderDesc sets the order column, descending. -/
def OpQuery.OrderDesc (op : OpQuery) (field : String) : OpQuery :=
  { op with order := field ++ " DESC" }

/-- OrderAsc sets the order column, ascending. -/
def OpQuery.OrderAsc (op : OpQuery) (field : String) : OpQuery :=
  { op with order := field ++ " ASC" }

/-- OrderReset resets the order statement to the empty string. -/
def OpQuery.OrderReset (op : OpQuery) : OpQuery :=
  { op with order := "" }

def OpQuery.OrderNullFirst (op : OpQuery) : OpQuery :=
  { op with nullPriority := "NULL FIRST" }

def OpQuery.OrderNullLast (op : OpQuery) : OpQuery :=
  { op with nullPriority := "NULL LAST" }

/-- Limit sets the maximal number of records returned; n == 0 is the reset
signal for an unlimited query. -/
def OpQuery.Limit (op : OpQuery) (n : Int) : OpQuery :=
  { op with limit := n }

/-- Go map write m[k] = v on the string-keyed map modelled as a key-unique
association list: overwrite in place when the key is present, append
otherwise.  Iteration order of a Go map is unspecified; the claims proved
below depend only on membership and lookup, never on the order. -/
def mapInsert : List (String × GoValue) → String → GoValue → List (String × GoValue)
  | [], k, v => [(k, v)]
  | p :: t, k, v => if p.1 = k then (k, v) :: t else p :: mapInsert t k v

/-- One iteration of the loop of makeWhereCluasesStatment: an invalid
clause is skipped (with a logged warning, a pure side effect), a valid
clause is written into the map keyed by its field name. -/
def whereStep (m : List (String × GoValue)) (c : whereClause) :
    List (String × GoValue) :=
  if c.IsValid then mapInsert m c.field c.condition else m

/-- The map built by the loop of makeWhereCluasesStatment. -/
def buildWhereData (cs : List whereClause) : List (String × GoValue) :=
  cs.foldl whereStep []

/-- Observation of the modelled Go map: the value stored under a key. -/
def mapLookup (m : List (String × GoValue)) (f : String) : Option GoValue :=
  match m with
  | [] => none
  | p :: t => if p.1 = f then some p.2 else mapLookup t f

/-- Observation of the modelled Go map: how many entries carry a key. -/
def keyCount (m : List (String × GoValue)) (f : String) : Nat :=
  (m.map Prod.fst).count f

/-- The last-assigned condition for a field: the condition of the last
valid where-clause whose field matches, if any.  This is the value the
specification text says a duplicate field collapses to. -/
def lastAssigned (f : String) : List whereClause → Option GoValue
  | [] => none
  | c :: cs =>
    match lastAssigned f cs with
    | some v => some v
    | none => if c.IsValid ∧ c.field = f then some c.condition else none

/-- makeSelectStatment joins selectFileds by commas (the warning printed on
an empty list is a pure side effect). -/
def OpQuery.makeSelectStatment (op : OpQuery) : String :=
  String.intercalate "," op.selectFileds

/-- makeWhereCluasesStatment: group the valid clauses by field into a map;
if the map is empty return the empty string, otherwise render each entry as
field=value and join by commas after the WHERE keyword. -/
def OpQuery.makeWhereCluasesStatment (op : OpQuery) : String :=
  let data := buildWhereData op.whereClauses
  if data.isEmpty then ""
  else "WHERE " ++ String.intercalate "," (data.map (fun p => p.1 ++ "=" ++ p.2.render))

/-- makeOrderStatment renders ORDER BY with the null priority defaulting to
NULL FIRST when unset. -/
def OpQuery.makeOrderStatment (op : OpQuery) : String :=
  if op.order == "" then ""
  else
    "ORDER BY " ++ op.order ++ " " ++
      (if op.nullPriority == "" then "NULL FIRST" else op.nullPriority)

/-- makeLimitStatment renders LIMIT n when the limit is positive and the
empty string otherwise. -/
def OpQuery.makeLimitStatment (op : OpQuery) : String :=
  if op.limit > 0 then "LIMIT " ++ toString op.limit else ""

/-- makeQueryStatment: the base query SELECT ... FROM ... followed by the
where, order and limit segments, all four joined by single spaces
(strings.Join with separator " " in the source, empty segments included). -/
def OpQuery.makeQueryStatment (op : OpQuery) : String :=
  let baseQuery := "SELECT " ++ op.makeSelectStatment ++ " FROM " ++ op.sobjectName
  String.intercalate " " [baseQuery,
    op.makeWhereCluasesStatment, op.makeOrderStatment, op.makeLimitStatment]

/-- The assembly the specification text describes for claim C1: the same
four segments in the same fixed order, but with empty segments omitted
entirely, so only present clauses are joined by single spaces. -/
def specAssembleOmitEmpty (op : OpQuery) : String :=
  let baseQuery := "SELECT " ++ op.makeSelectStatment ++ " FROM " ++ op.sobjectName
  String.intercalate " " (([baseQuery,
    op.makeWhereCluasesStatment, op.makeOrderStatment,
    op.makeLimitStatment]).filter (fun s => s ≠ ""))

/-! ## Request context (request_context.go) -/

def minAPIVersion : Int := 8
def maxAPIVersion : Int := 37

structure RequestCtx where
  host : String
  version : Int
  deriving DecidableEq, Repr

def RequestCtx.isVersionValid (ctx : RequestCtx) : Bool :=
  minAPIVersion ≤ ctx.version && ctx.version ≤ maxAPIVersion

/-- BaseURL returns the base URL of the restful api. -/
def RequestCtx.BaseURL (ctx : RequestCtx) : String :=
  ctx.host ++ "/services/data"

/-- VersionURL returns the URL with the version segment v<version>.0. -/
def RequestCtx.VersionURL (ctx : RequestCtx) : String :=
  ctx.BaseURL ++ "/v" ++ toString ctx.version ++ ".0"

/-- Modelled from the spec: percent-encoding of the SOQL string is done by
the url.QueryEscape capability of the Go standard library, external to this
repository; no claim below depends on the encoding, so it is modelled as
the identity embedding of the raw string. -/
def urlQueryEscape (s : String) : String := s

/-- QueryURL returns the URL carrying the SOQL statement as the q query
parameter. -/
def RequestCtx.QueryURL (ctx : RequestCtx) (q : String) : String :=
  ctx.VersionURL ++ "/query?q=" ++ urlQueryEscape q

def RequestCtx.SObjectBaseURL (ctx : RequestCtx) : String :=
  ctx.VersionURL ++ "/sobjects"

def RequestCtx.SObjectURL (ctx : RequestCtx) (sobject : String) : String :=
  ctx.SObjectBaseURL ++ "/" ++ sobject

def RequestCtx.SObjectOpURL (ctx : RequestCtx) (sobject sobjectID : String) : String :=
  ctx.SObjectURL sobject ++ "/" ++ sobjectID

/-- Modelled from the spec: the gosf request-context helper named
SobjectURLWithName in the operator file is not under src/; per the
external-interface section it renders the object-collection URL template
<host>/services/data/v<version>.0/sobjects/<name>, the same shape as
SObjectURL above. -/
def RequestCtx.SobjectURLWithName (ctx : RequestCtx) (sobject : String) : String :=
  ctx.SObjectURL sobject

/-- Modelled from the spec: the gosf request-context helper named
SobjectURLWithID in the operator file is not under src/; per the
external-interface section it renders the object-instance URL template
<host>/services/data/v<version>.0/sobjects/<name>/<id>, the same shape as
SObjectOpURL above. -/
def RequestCtx.SobjectURLWithID (ctx : RequestCtx) (sobject sobjectID : String) : String :=
  ctx.SObjectOpURL sobject sobjectID

/-! ## Config and the NewClient normalisation (logger.go) -/

structure Config where
  Host : String
  ClientID : String
  ClientSecret : String
  Username : String
  Password : String
  ExpiresIn : Int
  APIVersion : Int
  deriving DecidableEq, Repr

/-- The config normalisation performed by NewClient: a non-positive token
lifetime is overwritten in place with 3600 (the warning is a pure side
effect).  NewClient writes through the config pointer, so the returned
value is also the state of the caller value after the call. -/
def newClientConfig (config : Config) : Config :=
  if config.ExpiresIn ≤ 0 then { config with ExpiresIn := 3600 } else config

/-- The request context built by NewClient: host and version are copied
from the config and the version is set to maxAPIVersion when it is out of
bounds (the warning is a pure side effect). -/
def newClientRequestCtx (config : Config) : RequestCtx :=
  let requestCtx : RequestCtx := { host := config.Host, version := config.APIVersion }
  if requestCtx.isVersionValid then requestCtx
  else { requestCtx with version := maxAPIVersion }

/-! ## Operators and the dispatcher (operator file and logger.go) -/

/-- The gosf Request value produced by NewRequest(method, url, data); the
payload is the optional dynamic value later JSON-encoded by makeRequest. -/
structure Request where
  method : String
  url : String
  data : Option GoValue
  deriving DecidableEq, Repr

def NewRequest (method url : String) (data : Option GoValue) : Request :=
  { method := method, url := url, data := data }

/-- The five operator variants.  The payload and target references of
dynamic type are modelled as an optional dynamic value (nil is none); the
result and target holders play no role in Make. -/
inductive Op where
  | create (sobjectName : String) (sobject : Option GoValue)
  | update (sobjectName sobjectID : String) (sobject : Option GoValue)
  | delete (sobjectName sobjectID : String)
  | get (sobjectName sobjectID : String)
  | query (q : OpQuery)
  deriving DecidableEq, Repr

/-- The object-name field of each variant. -/
def Op.objectName : Op → String
  | .create n _ => n
  | .update n _ _ => n
  | .delete n _ => n
  | .get n _ => n
  | .query q => q.sobjectName

/-- Make for every variant: the switch validates the required fields in
source order and otherwise builds the request from the context URL
formatters. -/
def Op.Make : Op → RequestCtx → Except String Request
  | .create sobjectName sobject, ctx =>
    if sobjectName = "" then .error "missing Sobject name"
    else if sobject = none then .error "missing Sobject"
    else .ok (NewRequest "POST" (ctx.SobjectURLWithName sobjectName) sobject)
  | .update sobjectName sobjectID sobject, ctx =>
    if sobjectName = "" then .error "missing Sobject name"
    else if sobjectID = "" then .error "missing Sobject id"
    else if sobject = none then .error "missing Sobject"
    else .ok (NewRequest "PATCH" (ctx.SobjectURLWithID sobjectName sobjectID) sobject)
  | .delete sobjectName sobjectID, ctx =>
    if sobjectName = "" then .error "missing Sobject name"
    else if sobjectID = "" then .error "missing Sobject id"
    else .ok (NewRequest "DELETE" (ctx.SobjectURLWithID sobjectName sobjectID) none)
  | .get sobjectName sobjectID, ctx =>
    if sobjectName = "" then .error "missing Sobject name"
    else if sobjectID = "" then .error "missing Sobject id"
    else .ok (NewRequest "GET" (ctx.SobjectURLWithID sobjectName sobjectID) none)
  | .query q, ctx =>
    if q.sobjectName = "" then .error "missing Sobject name"
    else if q.selectFileds.length ≤ 0 then .error "missing select fields"
    else .ok (NewRequest "GET" (ctx.QueryURL q.makeQueryStatment) none)

structure HttpRequest where
  method : String
  url : String
  contentType : String
  body : String
  deriving DecidableEq, Repr

structure HttpResponse where
  StatusCode : Nat
  Body : String
  deriving DecidableEq, Repr

/-- Client.do together with doWithHTTPRequest: make the operator request,
turn it into an HTTP request (req.makeRequest with its JSON encoding is an
external codec, passed as a function), set the Content-Type header, send it
through the authenticating transport (passed as a function) and on a 2xx
status hand the response to the operator handler, otherwise to the
error-response parser. -/
def Client.doModel (ctx : RequestCtx) (op : Op)
    (makeRequest : Request → Except String HttpRequest)
    (send : HttpRequest → Except String HttpResponse)
    (handle : HttpResponse → Except String Unit)
    (parseErrResponse : HttpResponse → String) : Except String Unit :=
  match op.Make ctx with
  | .error e => .error e
  | .ok req =>
    match makeRequest req with
    | .error e => .error e
    | .ok httpReq =>
      match send { httpReq with contentType := "application/json" } with
      | .error e => .error e
      | .ok resp =>
        if resp.StatusCode / 100 = 2 then handle resp
        else .error (parseErrResponse resp)

structure opGet where
  sobjectName : String
  sobjectID : String
  deriving DecidableEq, Repr

/-- opGet.Handle: reject any status code other than 200 with an error
carrying the observed and the expected code; on 200 decode the body into
the held target (the JSON decode into op.target is the external codec,
passed as a function). -/
def opGet.Handle (_op : opGet) (resp : HttpResponse)
    (decodeBody : String → Except String Unit) : Except String Unit :=
  if resp.StatusCode ≠ 200 then
    .error ("get operator can't handle response with code " ++
      toString resp.StatusCode ++ ", expect 200")
  else decodeBody resp.Body

/-! ## Token state and the authenticating round trip (logger.go) -/

structure token where
  AccessToken : String
  TokenType : String
  Signature : String
  ExpiresAt : Int
  deriving DecidableEq, Repr

/-- IsExpired: the token is expired when the wall clock at check time is
strictly after ExpiresAt (time.Now().After). -/
def token.IsExpired (t : token) (now : Int) : Bool :=
  now > t.ExpiresAt

/-- The HTTP response of the token endpoint as the exchange sees it: the
status code and the two decoded views of the body the source uses (the
error envelope and the token envelope); a none view is a body the external
codec cannot decode into that shape. -/
structure TokenHTTPResponse where
  StatusCode : Nat
  errBody : Option (String × String)
  tokBody : Option (String × String × String)
  deriving DecidableEq, Repr

/-- The outcome of exchangeToken: the URL it posted the form to, the token
named return value and the error named return value (in Go both can be
set at once). -/
structure ExchangeResult where
  url : String
  tok : Option token
  err : Option String
  deriving DecidableEq, Repr

/-- exchangeToken: POST the password-grant form to
host ++ /services/oauth2/token; a non-200 response decodes the error
envelope and fails, a 200 response allocates the token with
ExpiresAt = now + ExpiresIn and then decodes the body into it.  The post
argument is the outcome of the external transport; the message of a
decode failure of the external codec is abstracted to a fixed string. -/
def exchangeToken (o : Config) (now : Int)
    (post : Except String TokenHTTPResponse) : ExchangeResult :=
  let u := o.Host ++ "/services/oauth2/token"
  match post with
  | .error e => { url := u, tok := none, err := some e }
  | .ok resp =>
    if resp.StatusCode ≠ 200 then
      match resp.errBody with
      | none => { url := u, tok := none, err := some "json decode failure" }
      | some (e, d) =>
        { url := u, tok := none, err := some ("OAuth fail(" ++ e ++ "): " ++ d) }
    else
      let t0 : token :=
        { AccessToken := "", TokenType := "", Signature := ""
          ExpiresAt := now + o.ExpiresIn }
      match resp.tokBody with
      | none => { url := u, tok := some t0, err := some "json decode failure" }
      | some (a, ty, sg) =>
        { url := u
          tok := some { t0 with AccessToken := a, TokenType := ty, Signature := sg }
          err := none }

/-- The condition under which RoundTrip exchanges first: the stored token
is absent (nil) or expired at the current wall clock. -/
def tokenAbsentOrExpired (stored : Option token) (now : Int) : Bool :=
  match stored with
  | none => true
  | some t => t.IsExpired now

/-- The observable outcome of one RoundTrip call: the token field of the
oAuth state after the call, the Authorization header of the forwarded
request (none when the target request was never sent) and the returned
error. -/
structure RoundTripResult where
  newToken : Option token
  sentAuthorization : Option String
  err : Option String
  deriving DecidableEq, Repr

/-- oAuth.RoundTrip: when the stored token is absent or expired, exchange
credentials first, storing the returned token and aborting on an exchange
error without sending; otherwise decorate the request with the
Authorization header TokenType AccessToken and forward it through the
default transport. -/
def oAuth.RoundTrip (o : Config) (stored : Option token) (now : Int)
    (post : Except String TokenHTTPResponse) : RoundTripResult :=
  if tokenAbsentOrExpired stored now then
    let ex := exchangeToken o now post
    match ex.err with
    | some e => { newToken := ex.tok, sentAuthorization := none, err := some e }
    | none =>
      match ex.tok with
      | some t =>
        { newToken := some t
          sentAuthorization := some (t.TokenType ++ " " ++ t.AccessToken)
          err := none }
      | none => { newToken := none, sentAuthorization := none, err := none }
  else
    match stored with
    | some t =>
      { newToken := some t
        sentAuthorization := some (t.TokenType ++ " " ++ t.AccessToken)
        err := none }
    | none => { newToken := none, sentAuthorization := none, err := none }

/-! ## Concrete values used by counterexamples and witnesses -/

/-- A one-field query on the User object with none of the three optional
clauses set. -/
def exQueryIdUser : OpQuery := (NewOpQuery "User").Select ["Id"]

/-- An OpQuery whose only where-clause has an invalid condition type. -/
def exWhereInvalidOnly : OpQuery :=
  { exQueryIdUser with whereClauses := [⟨"Age", GoValue.otherVal "structT"⟩] }

def exConfig : Config :=
  { Host := "https://sf.example"
    ClientID := "cid"
    ClientSecret := "sec"
    Username := "user"
    Password := "pass"
    ExpiresIn := 3600
    APIVersion := 37 }

def exConfigZeroExpiry : Config := { exConfig with ExpiresIn := 0 }

def exCtx : RequestCtx := { host := "https://sf.example", version := 37 }

def exOpGet : opGet := { sobjectName := "User", sobjectID := "001" }

def ex404 : HttpResponse := { StatusCode := 404, Body := "notfound" }

def exPostOk : Except String TokenHTTPResponse :=
  .ok { StatusCode := 200, errBody := none, tokBody := some ("tok", "Bearer", "sig") }

/-! # Theorems -/

/-! ## Shape of the assembled statement (C1, C7, C8) -/

theorem intercalate_four (a b c d : String) :
    String.intercalate " " [a, b, c, d] = a ++ " " ++ b ++ " " ++ c ++ " " ++ d := by
  rfl

theorem makeQueryStatment_eq (op : OpQuery) :
    op.makeQueryStatment =
      "SELECT " ++ op.makeSelectStatment ++ " FROM " ++ op.sobjectName ++ " " ++
        op.makeWhereCluasesStatment ++ " " ++ op.makeOrderStatment ++ " " ++
        op.makeLimitStatment := by
  simp [OpQuery.makeQueryStatment, intercalate_four, String.append_assoc]

theorem append_two_spaces (s : String) : s ++ " " ++ " " = s ++ "  " := by
  rw [String.append_assoc]
  congr 1

/-- C1 (counterexample): on a builder with no WHERE, ORDER BY or LIMIT
clause, the rendered statement keeps the blank segments (three trailing
spaces), so it differs from the assembly the claim describes, which omits
empty clauses entirely. -/
theorem c1_counterexample :
    exQueryIdUser.makeQueryStatment = "SELECT Id FROM User   " ∧
    specAssembleOmitEmpty exQueryIdUser = "SELECT Id FROM User" ∧
    exQueryIdUser.makeQueryStatment ≠ specAssembleOmitEmpty exQueryIdUser := by
  refine ⟨by decide, by decide, by decide⟩

/-- C1 (amended): the rendered SOQL statement assembles its clauses in the
fixed order SELECT, FROM, WHERE, ORDER BY, LIMIT with the four segments
joined by exactly one space each; an absent clause still contributes an
empty segment, so when WHERE, ORDER BY and LIMIT are all absent the
statement ends in three blank characters. -/
theorem c1_statement_assembly (op : OpQuery) :
    (op.makeQueryStatment =
      "SELECT " ++ op.makeSelectStatment ++ " FROM " ++ op.sobjectName ++ " " ++
        op.makeWhereCluasesStatment ++ " " ++ op.makeOrderStatment ++ " " ++
        op.makeLimitStatment) ∧
    (op.whereClauses = [] → op.order = "" → op.limit ≤ 0 →
      op.makeQueryStatment =
        "SELECT " ++ op.makeSelectStatment ++ " FROM " ++ op.sobjectName ++ "   ") := by
  constructor
  · exact makeQueryStatment_eq op
  · intro hw ho hl
    have hws : op.makeWhereCluasesStatment = "" := by
      simp [OpQuery.makeWhereCluasesStatment, hw, buildWhereData]
    have hos : op.makeOrderStatment = "" := by
      simp [OpQuery.makeOrderStatment, ho]
    have hls : op.makeLimitStatment = "" := by
      simp [OpQuery.makeLimitStatment]
      omega
    rw [makeQueryStatment_eq op, hws, hos, hls]
    rw [String.append_assoc _ " " "", String.append_assoc _ " " "",
        String.append_assoc _ (" " ++ "") _, String.append_assoc _ " " ""]
    rw [String.append_assoc]
    congr 1

/-- C1 (witness for the amended theorem). -/
theorem c1_statement_assembly_witness :
    exQueryIdUser.makeQueryStatment =
      "SELECT " ++ exQueryIdUser.makeSelectStatment ++ " FROM " ++
        exQueryIdUser.sobjectName ++ "   " :=
  (c1_statement_assembly exQueryIdUser).2 rfl rfl (by decide)

/-- C8: for a non-empty select-field list, the rendered statement begins
verbatim with SELECT, the comma-join of the fields, FROM and the object
name. -/
theorem c8_select_from_head (op : OpQuery) (_h : op.selectFileds ≠ []) :
    ∃ rest, op.makeQueryStatment =
      "SELECT " ++ String.intercalate "," op.selectFileds ++ " FROM " ++
        op.sobjectName ++ rest := by
  refine ⟨" " ++ op.makeWhereCluasesStatment ++ " " ++ op.makeOrderStatment ++ " " ++
    op.makeLimitStatment, ?_⟩
  rw [makeQueryStatment_eq op]
  simp [OpQuery.makeSelectStatment, String.append_assoc]

/-- C8 (witness). -/
theorem c8_select_from_head_witness :
    ∃ rest, exQueryIdUser.makeQueryStatment =
      "SELECT " ++ String.intercalate "," exQueryIdUser.selectFileds ++ " FROM " ++
        exQueryIdUser.sobjectName ++ rest :=
  c8_select_from_head exQueryIdUser (by decide)

/-- C7: the LIMIT clause is rendered exactly when the configured limit is
strictly positive; Limit 0 after Limit 5 yields the same builder as setting
the limit to zero directly, whose LIMIT segment matches a fresh builder on
which Limit was never called; and the full statement always ends with a
space followed by the LIMIT segment. -/
theorem c7_limit_reset (op : OpQuery) (n : String) :
    (op.makeLimitStatment ≠ "" ↔ 0 < op.limit) ∧
    (op.Limit 5).Limit 0 = { op with limit := 0 } ∧
    (NewOpQuery n).limit = 0 ∧
    ((op.Limit 5).Limit 0).makeLimitStatment = (NewOpQuery n).makeLimitStatment ∧
    ∃ pre, op.makeQueryStatment = pre ++ " " ++ op.makeLimitStatment := by
  refine ⟨?_, rfl, rfl, rfl, ?_⟩
  · constructor
    · intro h
      by_contra hle
      exact h (by simp [OpQuery.makeLimitStatment]; omega)
    · intro h heq
      rw [OpQuery.makeLimitStatment, if_pos h] at heq
      have := congrArg String.length heq
      simp [String.length_append] at this
      exact absurd this.1 (by decide)
  · exact ⟨"SELECT " ++ op.makeSelectStatment ++ " FROM " ++ op.sobjectName ++ " " ++
      op.makeWhereCluasesStatment ++ " " ++ op.makeOrderStatment,
      makeQueryStatment_eq op⟩

/-- C7 (witness). -/
theorem c7_limit_reset_witness :
    (exQueryIdUser.Limit 5).makeLimitStatment ≠ "" :=
  (c7_limit_reset (exQueryIdUser.Limit 5) "User").1.mpr (by decide)

/-! ## Lemmas about the modelled Go map and the where-clause loop -/

theorem mapLookup_mapInsert (m : List (String × GoValue)) (k : String) (v : GoValue)
    (f : String) :
    mapLookup (mapInsert m k v) f = if f = k then some v else mapLookup m f := by
  induction m with
  | nil =>
    by_cases hfk : f = k
    · simp [mapInsert, mapLookup, hfk]
    · simp [mapInsert, mapLookup, hfk, Ne.symm hfk]
  | cons p t ih =>
    by_cases hpk : p.1 = k
    · by_cases hfk : f = k
      · simp [mapInsert, mapLookup, hpk, hfk]
      · have hpf : ¬p.1 = f := fun h => hfk (h.symm.trans hpk)
        simp [mapInsert, mapLookup, hpk, hfk, Ne.symm hfk, hpf]
    · by_cases hpf : p.1 = f
      · have hfk : ¬f = k := fun h => hpk (hpf.trans h)
        simp [mapInsert, mapLookup, hpk, hpf, hfk]
      · simp [mapInsert, mapLookup, hpk, hpf, ih]

theorem keys_mapInsert (m : List (String × GoValue)) (k : String) (v : GoValue) :
    (mapInsert m k v).map Prod.fst =
      if k ∈ m.map Prod.fst then m.map Prod.fst else m.map Prod.fst ++ [k] := by
  induction m with
  | nil => simp [mapInsert]
  | cons p t ih =>
    by_cases hpk : p.1 = k
    · simp [mapInsert, hpk]
    · by_cases hk : k ∈ t.map Prod.fst
      · simp [mapInsert, hpk, hk, ih, Ne.symm hpk]
      · simp [mapInsert, hpk, hk, ih, Ne.symm hpk]

theorem nodup_keys_mapInsert (m : List (String × GoValue)) (k : String) (v : GoValue)
    (h : (m.map Prod.fst).Nodup) : ((mapInsert m k v).map Prod.fst).Nodup := by
  rw [keys_mapInsert]
  by_cases hk : k ∈ m.map Prod.fst
  · simpa [hk] using h
  · simp [hk, List.nodup_append, h]

theorem nodup_keys_whereStep (m : List (String × GoValue)) (c : whereClause)
    (h : (m.map Prod.fst).Nodup) : ((whereStep m c).map Prod.fst).Nodup := by
  unfold whereStep
  by_cases hv : c.IsValid
  · simpa [hv] using nodup_keys_mapInsert m c.field c.condition h
  · simpa [hv] using h

theorem nodup_keys_foldl_whereStep (cs : List whereClause)
    (m : List (String × GoValue)) (h : (m.map Prod.fst).Nodup) :
    (((cs.foldl whereStep m)).map Prod.fst).Nodup := by
  induction cs generalizing m with
  | nil => simpa using h
  | cons c t ih => exact ih (whereStep m c) (nodup_keys_whereStep m c h)

theorem nodup_keys_buildWhereData (cs : List whereClause) :
    ((buildWhereData cs).map Prod.fst).Nodup :=
  nodup_keys_foldl_whereStep cs [] (by simp)

theorem mapLookup_foldl_whereStep (cs : List whereClause)
    (m : List (String × GoValue)) (f : String) :
    mapLookup (cs.foldl whereStep m) f =
      match lastAssigned f cs with
      | some v => some v
      | none => mapLookup m f := by
  induction cs generalizing m with
  | nil => simp [lastAssigned]
  | cons c t ih =>
    rw [List.foldl_cons, ih (whereStep m c)]
    cases hl : lastAssigned f t with
    | some v => simp [lastAssigned, hl]
    | none =>
      simp only [lastAssigned, hl]
      unfold whereStep
      by_cases hv : c.IsValid
      · rw [if_pos hv, mapLookup_mapInsert]
        by_cases hf : c.field = f
        · simp [hv, hf]
        · have hf' : ¬f = c.field := fun h => hf h.symm
          simp [hv, hf, hf']
      · simp [hv]

theorem mapLookup_buildWhereData (cs : List whereClause) (f : String) :
    mapLookup (buildWhereData cs) f = lastAssigned f cs := by
  rw [buildWhereData, mapLookup_foldl_whereStep]
  cases lastAssigned f cs <;> simp [mapLookup]

theorem foldl_whereStep_filter (cs : List whereClause) (m : List (String × GoValue)) :
    cs.foldl whereStep m = (cs.filter (fun c => c.IsValid)).foldl whereStep m := by
  induction cs generalizing m with
  | nil => rfl
  | cons c t ih =>
    by_cases hv : c.IsValid
    · simp [List.filter_cons, hv, ih]
    · simp [List.filter_cons, hv, ih, whereStep]

/-- C9: grouping the where-clauses by field name into the map makes
duplicate fields collapse: the rendered WHERE entries come from the map
built by the loop, that map holds at most one entry per field, and the
entry stored under a field is the condition of the last valid clause
assigned to it. -/
theorem c9_duplicate_fields_collapse (op : OpQuery) (f : String) :
    (op.makeWhereCluasesStatment =
      if (buildWhereData op.whereClauses).isEmpty then ""
      else "WHERE " ++ String.intercalate ","
        ((buildWhereData op.whereClauses).map (fun p => p.1 ++ "=" ++ p.2.render))) ∧
    keyCount (buildWhereData op.whereClauses) f ≤ 1 ∧
    mapLookup (buildWhereData op.whereClauses) f = lastAssigned f op.whereClauses := by
  refine ⟨rfl, ?_, mapLookup_buildWhereData op.whereClauses f⟩
  exact List.nodup_iff_count_le_one.mp (nodup_keys_buildWhereData op.whereClauses) f

/-- C5: the where-map depends only on the valid clauses, so a clause whose
condition is not a number, boolean or string never reaches the rendered
WHERE segment; when every clause is invalid the WHERE segment is empty and
the full statement carries no WHERE text at all. -/
theorem c5_invalid_clauses_dropped (op : OpQuery) :
    buildWhereData op.whereClauses =
      buildWhereData (op.whereClauses.filter (fun c => c.IsValid)) ∧
    ((∀ c ∈ op.whereClauses, c.IsValid = false) →
      op.makeWhereCluasesStatment = "" ∧
      op.makeQueryStatment =
        "SELECT " ++ op.makeSelectStatment ++ " FROM " ++ op.sobjectName ++ "  " ++
          op.makeOrderStatment ++ " " ++ op.makeLimitStatment) := by
  constructor
  · exact foldl_whereStep_filter op.whereClauses []
  · intro h
    have hfil : op.whereClauses.filter (fun c => c.IsValid) = [] := by
      rw [List.filter_eq_nil_iff]
      intro c hc
      simp [h c hc]
    have hempty : buildWhereData op.whereClauses = [] := by
      rw [buildWhereData, foldl_whereStep_filter, hfil]
      rfl
    have hws : op.makeWhereCluasesStatment = "" := by
      simp [OpQuery.makeWhereCluasesStatment, hempty]
    refine ⟨hws, ?_⟩
    rw [makeQueryStatment_eq op, hws, String.append_empty, append_two_spaces]

/-- C5 (witness). -/
theorem c5_invalid_clauses_dropped_witness :
    exWhereInvalidOnly.makeWhereCluasesStatment = "" :=
  ((c5_invalid_clauses_dropped exWhereInvalidOnly).2 (by decide)).1

/-! ## Construction-time normalisation (C2, C10) -/

/-- C2: the context built by NewClient always carries an in-range version:
an API version outside [8, 37] is replaced by the maximum 37, an in-range
version is kept unchanged. -/
theorem c2_version_clamped (config : Config) :
    (newClientRequestCtx config).isVersionValid = true ∧
    ((config.APIVersion < 8 ∨ 37 < config.APIVersion) →
      (newClientRequestCtx config).version = 37) ∧
    ((8 ≤ config.APIVersion ∧ config.APIVersion ≤ 37) →
      (newClientRequestCtx config).version = config.APIVersion) := by
  by_cases h : (8:Int) ≤ config.APIVersion ∧ config.APIVersion ≤ 37
  · have hb : (RequestCtx.mk config.Host config.APIVersion).isVersionValid = true := by
      simp [RequestCtx.isVersionValid, minAPIVersion, maxAPIVersion]
      omega
    refine ⟨?_, fun hor => by omega, fun _ => ?_⟩
    · simp [newClientRequestCtx, hb]
    · simp [newClientRequestCtx, hb]
  · have hb : (RequestCtx.mk config.Host config.APIVersion).isVersionValid = false := by
      simp [RequestCtx.isVersionValid, minAPIVersion, maxAPIVersion]
      omega
    refine ⟨?_, fun _ => ?_, fun hin => absurd hin h⟩
    · simp [newClientRequestCtx, hb, RequestCtx.isVersionValid,
        minAPIVersion, maxAPIVersion]
      rw [if_neg h]
      show (8:Int) ≤ 37 ∧ (37:Int) ≤ 37
      exact ⟨by decide, by decide⟩
    · simp [newClientRequestCtx, hb, maxAPIVersion]

/-- C2 (witness). -/
theorem c2_version_clamped_witness :
    (newClientRequestCtx { exConfig with APIVersion := 99 }).version = 37 :=
  (c2_version_clamped { exConfig with APIVersion := 99 }).2.1 (Or.inr (by decide))

/-- C10 (counterexample): NewClient mutates the caller Config when the
supplied lifetime is non-positive: after construction with ExpiresIn = 0
the config no longer equals the supplied value, its ExpiresIn now reads
3600. -/
theorem c10_counterexample :
    newClientConfig exConfigZeroExpiry ≠ exConfigZeroExpiry ∧
    (newClientConfig exConfigZeroExpiry).ExpiresIn = 3600 ∧
    exConfigZeroExpiry.ExpiresIn = 0 := by
  refine ⟨by decide, by decide, by decide⟩

/-- C10 (amended): NewClient leaves every Config field other than
ExpiresIn unchanged; a positive supplied lifetime is kept (the whole
config is untouched), while a non-positive lifetime is overwritten in
place with the default 3600, mutating the caller value. -/
theorem c10_config_normalisation (config : Config) :
    ((newClientConfig config).Host = config.Host ∧
      (newClientConfig config).ClientID = config.ClientID ∧
      (newClientConfig config).ClientSecret = config.ClientSecret ∧
      (newClientConfig config).Username = config.Username ∧
      (newClientConfig config).Password = config.Password ∧
      (newClientConfig config).APIVersion = config.APIVersion) ∧
    (0 < config.ExpiresIn → newClientConfig config = config) ∧
    (config.ExpiresIn ≤ 0 → (newClientConfig config).ExpiresIn = 3600) := by
  unfold newClientConfig
  by_cases h : config.ExpiresIn ≤ 0
  · rw [if_pos h]
    exact ⟨⟨rfl, rfl, rfl, rfl, rfl, rfl⟩, fun hpos => absurd h (by omega), fun _ => rfl⟩
  · rw [if_neg h]
    exact ⟨⟨rfl, rfl, rfl, rfl, rfl, rfl⟩, fun _ => rfl, fun hle => absurd hle h⟩

/-- C10 (witness for the amended theorem). -/
theorem c10_config_normalisation_witness :
    (newClientConfig exConfigZeroExpiry).ExpiresIn = 3600 :=
  (c10_config_normalisation exConfigZeroExpiry).2.2 (by decide)

/-! ## Validation gate and dispatch (C4) -/

/-- C4: when the object-name field of any variant is empty, Make fails
with the error naming the missing Sobject name, and Client.do returns that
very error whatever the request builder, transport, handler and error
parser do, so no HTTP request is constructed or sent. -/
theorem c4_missing_object_name (op : Op) (ctx : RequestCtx)
    (h : op.objectName = "") :
    op.Make ctx = Except.error "missing Sobject name" ∧
    ∀ (makeRequest : Request → Except String HttpRequest)
      (send : HttpRequest → Except String HttpResponse)
      (handle : HttpResponse → Except String Unit)
      (parseErrResponse : HttpResponse → String),
      Client.doModel ctx op makeRequest send handle parseErrResponse =
        Except.error "missing Sobject name" := by
  have hmk : op.Make ctx = Except.error "missing Sobject name" := by
    cases op <;> (simp [Op.objectName] at h; simp [Op.Make, h])
  refine ⟨hmk, fun makeRequest send handle parseErrResponse => ?_⟩
  simp [Client.doModel, hmk]

/-- C4 (witness). -/
theorem c4_missing_object_name_witness :
    Op.Make (Op.get "" "001") exCtx = Except.error "missing Sobject name" :=
  (c4_missing_object_name (Op.get "" "001") exCtx rfl).1

/-! ## Response handling of the Get variant (C6) -/

/-- C6: on any status code other than 200 the Get handler fails with the
message carrying the observed and the expected code, independently of the
body decoder (so decoding is never attempted); on 200 it runs the decoder
on the body. -/
theorem c6_get_unexpected_status (op : opGet) (resp : HttpResponse) :
    (resp.StatusCode ≠ 200 →
      ∀ decodeBody : String → Except String Unit,
        op.Handle resp decodeBody =
          Except.error ("get operator can't handle response with code " ++
            toString resp.StatusCode ++ ", expect 200")) ∧
    (resp.StatusCode = 200 →
      ∀ decodeBody : String → Except String Unit,
        op.Handle resp decodeBody = decodeBody resp.Body) := by
  constructor
  · intro h d
    simp [opGet.Handle, h]
  · intro h d
    simp [opGet.Handle, h]

/-- C6 (witness): a simulated 404 produces the error with both codes. -/
theorem c6_get_unexpected_status_witness :
    exOpGet.Handle ex404 (fun _ => Except.ok ()) =
      Except.error ("get operator can't handle response with code " ++
        toString ex404.StatusCode ++ ", expect 200") :=
  (c6_get_unexpected_status exOpGet ex404).1 (by decide) (fun _ => Except.ok ())

/-! ## The authenticating round trip (C3) -/

theorem exchangeToken_url (o : Config) (now : Int)
    (post : Except String TokenHTTPResponse) :
    (exchangeToken o now post).url = o.Host ++ "/services/oauth2/token" := by
  unfold exchangeToken
  cases post with
  | error e => rfl
  | ok resp =>
    dsimp only
    split
    · split <;> rfl
    · split <;> rfl

theorem exchangeToken_ok_expiry (o : Config) (now : Int)
    (post : Except String TokenHTTPResponse)
    (hnone : (exchangeToken o now post).err = none) :
    ∀ t, (exchangeToken o now post).tok = some t →
      t.ExpiresAt = now + o.ExpiresIn := by
  cases post with
  | error e => simp [exchangeToken] at hnone
  | ok resp =>
    by_cases hs : resp.StatusCode ≠ 200
    · cases hb : resp.errBody with
      | none => simp [exchangeToken, hs, hb] at hnone
      | some p =>
        cases p with
        | mk e d => simp [exchangeToken, hs, hb] at hnone
    · cases hb : resp.tokBody with
      | none => simp [exchangeToken, hs, hb] at hnone
      | some p =>
        rcases p with ⟨a, ty, sg⟩
        intro t ht
        simp [exchangeToken, hs, hb] at ht
        subst ht
        rfl

/-- C3: the exchange posts to the fixed token endpoint; on an absent or
expired stored token the round trip exchanges first — an exchange error is
propagated and the target request is never sent, while a successful
exchange yields a token expiring at now plus the configured lifetime and
forwards the request with its Authorization header; and whenever a target
request is sent, the token backing it is present and not expired at the
wall clock of the call. -/
theorem c3_auth_roundtrip (o : Config) (stored : Option token) (now : Int)
    (post : Except String TokenHTTPResponse) :
    (exchangeToken o now post).url = o.Host ++ "/services/oauth2/token" ∧
    (tokenAbsentOrExpired stored now = true →
      (∀ e, (exchangeToken o now post).err = some e →
        (oAuth.RoundTrip o stored now post).err = some e ∧
        (oAuth.RoundTrip o stored now post).sentAuthorization = none) ∧
      (∀ t, (exchangeToken o now post).err = none →
        (exchangeToken o now post).tok = some t →
        t.ExpiresAt = now + o.ExpiresIn ∧
        (oAuth.RoundTrip o stored now post).sentAuthorization =
          some (t.TokenType ++ " " ++ t.AccessToken))) ∧
    (0 ≤ o.ExpiresIn →
      ∀ h, (oAuth.RoundTrip o stored now post).sentAuthorization = some h →
        ∃ t, (oAuth.RoundTrip o stored now post).newToken = some t ∧
          t.IsExpired now = false ∧
          h = t.TokenType ++ " " ++ t.AccessToken) := by
  refine ⟨exchangeToken_url o now post, ?_, ?_⟩
  · intro hneed
    constructor
    · intro e he
      constructor <;> simp [oAuth.RoundTrip, hneed, he]
    · intro t hnone htok
      refine ⟨exchangeToken_ok_expiry o now post hnone t htok, ?_⟩
      simp [oAuth.RoundTrip, hneed, hnone, htok]
  · intro hnn h hsent
    by_cases hneed : tokenAbsentOrExpired stored now = true
    · cases hE : (exchangeToken o now post).err with
      | some e => simp [oAuth.RoundTrip, hneed, hE] at hsent
      | none =>
        cases hT : (exchangeToken o now post).tok with
        | none => simp [oAuth.RoundTrip, hneed, hE, hT] at hsent
        | some t =>
          have hexp := exchangeToken_ok_expiry o now post hE t hT
          refine ⟨t, ?_, ?_, ?_⟩
          · simp [oAuth.RoundTrip, hneed, hE, hT]
          · simp only [token.IsExpired, hexp]
            simp
            omega
          · have := hsent
            simp [oAuth.RoundTrip, hneed, hE, hT] at this
            exact this.symm
    · cases stored with
      | none => simp [tokenAbsentOrExpired] at hneed
      | some t =>
        have hnotexp : t.IsExpired now = false := by
          have := hneed
          simpa [tokenAbsentOrExpired] using this
        refine ⟨t, ?_, hnotexp, ?_⟩
        · simp [oAuth.RoundTrip, tokenAbsentOrExpired, hnotexp]
        · have := hsent
          simp [oAuth.RoundTrip, tokenAbsentOrExpired, hnotexp] at this
          exact this.symm

/-- C3 (witness): a fresh client with no token exchanges and forwards with
the Bearer header of the obtained token. -/
theorem c3_auth_roundtrip_witness :
    (oAuth.RoundTrip exConfig none 0 exPostOk).sentAuthorization =
      some "Bearer tok" := by
  have h := (c3_auth_roundtrip exConfig none 0 exPostOk).2.1 rfl
  have h2 := h.2
    { AccessToken := "tok", TokenType := "Bearer", Signature := "sig"
      ExpiresAt := 3600 } (by decide) (by decide)
  rw [h2.2]
  rfl

end GoSF
